import Mathlib

/-!
Verification development for `src/oat_create_areas.cpp` of osm-area-tools.

The program is a two-pass streaming pipeline: pass 1 reads relations into a
multipolygon collector, pass 2 streams nodes and ways, resolves way geometry
through a pluggable location index, assembles areas and fans them out to an
OGR sink, a dump stream and a problem reporter.  The definitions below are a
shallow embedding of the source file: option parsing (`main`'s getopt loop),
the `entity_bits` helper, the `optional_output` holder, the `OutputOGR`
handler, the `DummyAssembler` used in collect-only mode, and the setup/run
control flow of `main`.  Parts of the pipeline that live in the osmium
library rather than in the source file (the collector's dependency tracking,
the synthetic area id) are modelled from the specification and marked as
such in their doc comments.
-/

namespace OatAreas

/-- Target of an `optional_output`: either standard output or a named file.
For a file we record whether the `std::ofstream` actually opened; the source
never inspects this. -/
inductive StreamTarget where
  | stdout
  | file (name : String) (openOk : Bool)
deriving DecidableEq

/-- Embeds class `optional_output` (source lines 190-221): a possibly absent
output stream. -/
structure optional_output where
  stream : Option StreamTarget := none
deriving DecidableEq

/-- Embeds `optional_output::set_file` (lines 204-206).  The source executes
`stream = new std::ofstream{filename}` without checking whether the file
opened: the stream is installed unconditionally, the open outcome is only
carried inside the target and nothing branches on it. -/
def optional_output.set_file (o : optional_output) (filename : String) (openOk : Bool) :
    optional_output :=
  { o with stream := some (StreamTarget.file filename openOk) }

/-- Embeds `optional_output::set_stdout` (lines 208-210). -/
def optional_output.set_stdout (o : optional_output) : optional_output :=
  { o with stream := some StreamTarget.stdout }

/-- Embeds `optional_output::operator bool` (lines 212-214). -/
def optional_output.isSet (o : optional_output) : Bool :=
  o.stream.isSome

/-- True when the holder points at a file whose open failed.  In the source
such a stream is in `std::ofstream` fail state: writes to it are silently
discarded, but nothing detects this. -/
def optional_output.broken (o : optional_output) : Bool :=
  match o.stream with
  | some (StreamTarget.file _ openOk) => !openOk
  | _ => false

/-- Entity type mask requested from an `osmium::io::Reader`. -/
structure EntityBits where
  node : Bool
  way : Bool
  relation : Bool
deriving DecidableEq

/-- Embeds `entity_bits` (lines 223-229): the type mask for the pass-2
reader. -/
def entity_bits (location_index_type : String) : EntityBits :=
  if location_index_type = "none" then
    { node := false, way := true, relation := false }
  else
    { node := true, way := true, relation := false }

/-- The pass-1 reader mask of `read_relations` (line 173): relations only. -/
def pass1_reader_bits : EntityBits :=
  { node := false, way := false, relation := true }

/-- The option state accumulated by `main`'s getopt loop, with the source's
initial values (lines 256-274). -/
structure Options where
  database_name : String := ""
  location_index_type : String := "sparse_mmap_array"
  dump_stream : optional_output := {}
  problem_stream : optional_output := {}
  debug_level : Int := 0
  check : Bool := false
  collect_only : Bool := false
  only_invalid : Bool := false
  show_incomplete : Bool := false
  overwrite : Bool := false
  check_roles : Bool := false
  create_empty_areas : Bool := false
  way_polygons : Bool := true
  new_style_polygons : Bool := true
  old_style_polygons : Bool := true
deriving DecidableEq

/-- One state-changing command line option, mirroring the getopt cases of
`main` (lines 282-357).  The optional file arguments of `-D` and `-p` carry
the open outcome of the `std::ofstream` the source would create (`-h` and
`-I` exit immediately and are not modelled). -/
inductive Opt where
  | check
  | collectOnly
  | debug (arg : Option Int)
  | dumpAreas (arg : Option String) (openOk : Bool)
  | emptyAreas
  | onlyInvalid
  | index (arg : String)
  | output (arg : String)
  | overwrite
  | reportProblems (arg : Option String) (openOk : Bool)
  | showIncomplete
  | checkRoles
  | noNewStyle
  | noOldStyle
  | noWayPolygons
  | noAreas
deriving DecidableEq

/-- Embeds one iteration of the getopt switch (lines 282-357). -/
def applyOpt (opts : Options) (o : Opt) : Options :=
  match o with
  | Opt.check => { opts with check := true }
  | Opt.collectOnly => { opts with collect_only := true }
  | Opt.debug arg => { opts with debug_level := arg.getD 1 }
  | Opt.dumpAreas arg openOk =>
    match arg with
    | some f => { opts with dump_stream := opts.dump_stream.set_file f openOk }
    | none => { opts with dump_stream := opts.dump_stream.set_stdout }
  | Opt.emptyAreas => { opts with create_empty_areas := true }
  | Opt.onlyInvalid => { opts with only_invalid := true, check := true }
  | Opt.index t => { opts with location_index_type := t }
  | Opt.output db => { opts with database_name := db }
  | Opt.overwrite => { opts with overwrite := true }
  | Opt.reportProblems arg openOk =>
    match arg with
    | some f => { opts with problem_stream := opts.problem_stream.set_file f openOk }
    | none => { opts with problem_stream := opts.problem_stream.set_stdout }
  | Opt.showIncomplete => { opts with show_incomplete := true }
  | Opt.checkRoles => { opts with check_roles := true }
  | Opt.noNewStyle => { opts with new_style_polygons := false }
  | Opt.noOldStyle => { opts with old_style_polygons := false }
  | Opt.noWayPolygons => { opts with way_polygons := false }
  | Opt.noAreas =>
    { opts with new_style_polygons := false, old_style_polygons := false,
                way_polygons := false }

/-- The whole getopt loop: fold the options over the initial state. -/
def parseOptions (args : List Opt) : Options :=
  args.foldl applyOpt {}

/-- The mask the pass-2 reader is opened with (lines 385, 426 and 474 all
pass `entity_bits(location_index_type)`). -/
def pass2_reader_bits (opts : Options) : EntityBits :=
  entity_bits opts.location_index_type

/-- An assembled area as seen by the `OutputOGR` sink.  `from_way`/`orig_id`
embed `osmium::Area::from_way()`/`orig_id()`; `convOk` records whether
`create_multipolygon` succeeds on it (failure throws the
`osmium::geometry_error` the source catches); `geomValid` is the verdict of
the external `IsValid` geometry test; `writeOk` records whether the gdalcpp
feature write (`Feature` construction and `add_to_layer`, lines 106-111)
succeeds — its failure raises gdalcpp's own error type, which is not an
`osmium::geometry_error`. -/
structure Area where
  from_way : Bool
  orig_id : Nat
  convOk : Bool
  geomValid : Bool
  writeOk : Bool := true
  errMsg : String := ""
deriving DecidableEq

/-- Modelled from the spec: the synthetic area id is "derived
deterministically from source id and type so that a way-derived and a
relation-derived area never collide"; concretely twice the source id, plus
one for relation-derived areas (the parity convention behind
`osmium::Area::from_way()`). -/
def area_id (from_way : Bool) (orig_id : Nat) : Nat :=
  2 * orig_id + (if from_way then 0 else 1)

/-- The value of `static_cast<int32_t>(x)` for an unsigned source value:
reduce modulo 2^32 and reinterpret as a signed 32-bit integer. -/
def toInt32 (n : Nat) : Int :=
  if n % 4294967296 < 2147483648 then ((n % 4294967296 : Nat) : Int)
  else ((n % 4294967296 : Nat) : Int) - 4294967296

/-- The id field persisted by the sink for an area: the synthetic area id
truncated by the `static_cast<int32_t>` on source line 107. -/
def persisted_id (from_way : Bool) (orig_id : Nat) : Int :=
  toInt32 (area_id from_way orig_id)

/-- A feature row written to the "areas" layer (lines 106-111). -/
structure Feature where
  id : Int
  valid : Bool
  source : String
  orig_id : Int
deriving DecidableEq

/-- The diagnostic record printed by `OutputOGR::print_area_error`
(lines 57-64): area id, origin kind, original id and cause. -/
structure ProblemRecord where
  area_id : Nat
  source_kind : String
  orig_id : Nat
  cause : String
deriving DecidableEq

/-- Embeds `OutputOGR::print_area_error` (lines 57-64). -/
def print_area_error (a : Area) : ProblemRecord :=
  { area_id := area_id a.from_way a.orig_id
  , source_kind := if a.from_way then "way" else "relation"
  , orig_id := a.orig_id
  , cause := a.errMsg }

/-- The state of the `OutputOGR` handler (lines 54-55). -/
structure OutputOGR where
  m_check : Bool := false
  m_only_invalid : Bool := false
deriving DecidableEq

/-- Embeds `OutputOGR::set_check` (lines 77-79). -/
def OutputOGR.set_check (o : OutputOGR) (check : Bool) : OutputOGR :=
  { o with m_check := check }

/-- Embeds `OutputOGR::set_only_invalid` (lines 81-83). -/
def OutputOGR.set_only_invalid (o : OutputOGR) (only_invalid : Bool) : OutputOGR :=
  { o with m_only_invalid := only_invalid }

/-- The `is_valid` flag computed in `OutputOGR::area` (lines 87-102): false
unless checking is enabled, in which case the geometry test's verdict. -/
def OutputOGR.is_valid (o : OutputOGR) (a : Area) : Bool :=
  if o.m_check then a.geomValid else false

/-- Outcome of `OutputOGR::area` for one area: a feature written to the
layer, a silent discard (only-invalid filter), a problem report from the
`catch` block, or an exception escaping the handler — the `catch` on line
112 names only `osmium::geometry_error`, so a failing gdalcpp feature write
throws past it uncaught. -/
inductive AreaOutcome where
  | written (f : Feature)
  | discarded
  | problem (p : ProblemRecord)
  | uncaughtError
deriving DecidableEq

/-- Embeds `OutputOGR::area` (lines 85-115): convert the geometry (failure
throws `osmium::geometry_error`, caught and reported), compute `is_valid`
when checking is on, drop valid areas in only-invalid mode, otherwise write
the feature fields; a failing feature write raises gdalcpp's error type,
which the `catch (osmium::geometry_error&)` on line 112 does not handle, so
it escapes the handler. -/
def OutputOGR.area (o : OutputOGR) (a : Area) : AreaOutcome :=
  if a.convOk then
    if o.m_only_invalid && o.is_valid a then AreaOutcome.discarded
    else if a.writeOk then
      AreaOutcome.written
        { id := persisted_id a.from_way a.orig_id
        , valid := o.is_valid a
        , source := if a.from_way then "w" else "r"
        , orig_id := toInt32 a.orig_id }
    else AreaOutcome.uncaughtError
  else AreaOutcome.problem (print_area_error a)

/-- The sink applied to a stream of areas: each area yields its outcome and
the handler returns normally — except an uncaught exception, which
propagates out of the handler chain (nothing above it in `main` catches),
terminating processing with no outcome for the remaining areas. -/
def OutputOGR.processAreas (o : OutputOGR) : List Area → List AreaOutcome
  | [] => []
  | a :: rest =>
    match o.area a with
    | AreaOutcome.written f => AreaOutcome.written f :: o.processAreas rest
    | AreaOutcome.discarded => AreaOutcome.discarded :: o.processAreas rest
    | AreaOutcome.problem p => AreaOutcome.problem p :: o.processAreas rest
    | AreaOutcome.uncaughtError => [AreaOutcome.uncaughtError]

/-- The features a list of outcomes writes to the layer. -/
def writtenFeatures (outs : List AreaOutcome) : List Feature :=
  outs.filterMap fun x =>
    match x with
    | AreaOutcome.written f => some f
    | _ => none

/-- The problem records a list of outcomes reports. -/
def reportedProblems (outs : List AreaOutcome) : List ProblemRecord :=
  outs.filterMap fun x =>
    match x with
    | AreaOutcome.problem p => some p
    | _ => none

/-- The `OutputOGR` handler as `main` configures it (lines 456-458). -/
def outputOGRFor (opts : Options) : OutputOGR :=
  (({} : OutputOGR).set_check opts.check).set_only_invalid opts.only_invalid

/-- A fatal setup failure: the SQLite dataset cannot be created
(`gdalcpp::Dataset` constructor, line 451) or the input file cannot be
opened (`osmium::io::Reader` constructor). -/
inductive SetupError where
  | dbOpen
  | inputOpen
deriving DecidableEq

/-- External open outcomes for one run. -/
structure Env where
  inputOpenOk : Bool
  dbOpenOk : Bool
deriving DecidableEq

/-- Result of a run: a fatal abort (recording whether pass 1 had already
started) or normal completion (recording whether the problem and dump file
streams were broken, i.e. silently discarding their output). -/
inductive RunResult where
  | fatal (e : SetupError) (pass1Started : Bool)
  | completed (problemFileBroken : Bool) (dumpFileBroken : Bool)
deriving DecidableEq

/-- Whether a run result is a fatal abort. -/
def RunResult.isFatal : RunResult → Bool
  | RunResult.fatal _ _ => true
  | _ => false

/-- Control flow of `main` after option parsing (lines 366-514): in the
collect-only branch and the no-database branch no dataset is opened; in the
database branch the dataset is created before pass 1; the input reader is
opened inside `read_relations` as pass 1 starts.  An unopenable problem or
dump file never changes control flow because `set_file` does not check the
open. -/
def run (opts : Options) (env : Env) : RunResult :=
  if opts.collect_only then
    if env.inputOpenOk then
      RunResult.completed opts.problem_stream.broken opts.dump_stream.broken
    else RunResult.fatal SetupError.inputOpen true
  else if opts.database_name = "" then
    if env.inputOpenOk then
      RunResult.completed opts.problem_stream.broken opts.dump_stream.broken
    else RunResult.fatal SetupError.inputOpen true
  else
    if env.dbOpenOk then
      if env.inputOpenOk then
        RunResult.completed opts.problem_stream.broken opts.dump_stream.broken
      else RunResult.fatal SetupError.inputOpen true
    else RunResult.fatal SetupError.dbOpen false

/-- The problem reporter `main` installs in the assembling (non
collect-only) path. -/
inductive ProblemReporterKind where
  | stream (target : StreamTarget)
  | ogr
deriving DecidableEq

/-- Embeds the reporter selection of `main`: lines 409-412 install a stream
reporter when a problem stream was requested; in the database branch lines
460-462 fall back to `ProblemReporterOGR`; in the no-database branch no
fallback exists and `assembler_config.problem_reporter` stays null. -/
def problem_reporter (opts : Options) : Option ProblemReporterKind :=
  match opts.problem_stream.stream with
  | some t => some (ProblemReporterKind.stream t)
  | none =>
    if opts.database_name = "" then none
    else some ProblemReporterKind.ogr

/-- A relation as pass 1 sees it: id, the verdict of the area-membership
predicate over its tags, and its eligible way members in order. -/
structure Relation where
  rid : Nat
  isAreaRelation : Bool
  wayMembers : List Nat
deriving DecidableEq

/-- A pending relation retained by the collector: id, the member way list,
and the member ways not yet seen in pass 2. -/
structure PendingRelation where
  rid : Nat
  members : List Nat
  missing : List Nat
deriving DecidableEq

/-- Modelled from the spec: the pass-1 relation prefilter of the osmium
`MultipolygonCollector` driven by `read_relations` (lines 171-176) — retain
relations matching the area predicate, record their way members, and
classify relations with no eligible way member immediately (they never
become ready through the normal path). -/
def prefilter (rels : List Relation) : List PendingRelation :=
  (rels.filter fun r => r.isAreaRelation && !r.wayMembers.isEmpty).map
    fun r => { rid := r.rid, members := r.wayMembers, missing := r.wayMembers }

/-- An observable event of the two-pass run: a relation read in pass 1, a
way streaming past in pass 2, or a ready relation dispatched to the
assembler. -/
inductive Event where
  | pass1Read (rid : Nat)
  | wayRead (wid : Nat)
  | dispatched (rid : Nat)
deriving DecidableEq

/-- Modelled from the spec: one pass-2 step of the dependency tracker — a
streamed way completes every pending member entry with its id; relations
whose missing set becomes empty are dispatched and released, the others stay
pending. -/
def stepWay (pending : List PendingRelation) (w : Nat) :
    List PendingRelation × List Nat :=
  let upd := pending.map fun pr =>
    { pr with missing := pr.missing.filter fun m => m != w }
  ((upd.filter fun pr => !pr.missing.isEmpty),
   (upd.filter fun pr => pr.missing.isEmpty).map PendingRelation.rid)

/-- Modelled from the spec: pass 2 over the way stream, producing the final
pending set and the event trace (each streamed way followed by the
relations it made ready). -/
def pass2 (pending : List PendingRelation) :
    List Nat → List PendingRelation × List Event
  | [] => (pending, [])
  | w :: ws =>
    let s := stepWay pending w
    let rest := pass2 s.1 ws
    (rest.1, Event.wayRead w :: (s.2.map Event.dispatched ++ rest.2))

/-- The relation ids dispatched in a trace. -/
def dispatchedIn (evs : List Event) : List Nat :=
  evs.filterMap fun e =>
    match e with
    | Event.dispatched r => some r
    | _ => none

/-- The pass-1 segment of the trace: only relation reads. -/
def pass1Events (rels : List Relation) : List Event :=
  rels.map fun r => Event.pass1Read r.rid

/-- The whole run: pass 1 (relations only, `read_relations`) then pass 2
(the way stream). -/
def runEvents (rels : List Relation) (ws : List Nat) : List Event :=
  pass1Events rels ++ (pass2 (prefilter rels) ws).2

/-- The relations still pending when the stream ends — the collector's
`get_incomplete_relations` (line 180). -/
def get_incomplete_relations (rels : List Relation) (ws : List Nat) :
    List PendingRelation :=
  (pass2 (prefilter rels) ws).1

/-- Embeds `show_incomplete_relations` (lines 178-188): when the incomplete
set is non-empty, one warning message listing every id; otherwise
nothing. -/
def show_incomplete_relations (incomplete : List Nat) : Option (List Nat) :=
  if incomplete.isEmpty then none else some incomplete

/-- The end-of-run incomplete report of `main` (lines 440-442 and 510-512):
emitted only when `-r` was given. -/
def end_of_run_report (opts : Options) (incomplete : List Nat) :
    Option (List Nat) :=
  if opts.show_incomplete then show_incomplete_relations incomplete else none

/-- The cumulative effect of a way prefix on one pending relation: every
member that already streamed past is no longer missing. -/
def procList (ws : List Nat) (pr : PendingRelation) : PendingRelation :=
  { pr with missing := pr.missing.filter fun m => !ws.contains m }

/-- Filtering a way out of the missing set and then a way suffix equals
filtering the whole prefix at once. -/
lemma filter_missing_cons (l : List Nat) (w : Nat) (ws : List Nat) :
    ((l.filter fun m => m != w).filter fun m => !ws.contains m)
      = l.filter fun m => !((w :: ws).contains m) := by
  rw [List.filter_filter]
  refine List.filter_congr fun m _ => ?_
  cases h : (m == w) with
  | false =>
    have hne : ¬m = w := by simpa using h
    simp [bne, h, hne]
  | true =>
    have he : m = w := by simpa using h
    simp [bne, h, he]

/-- An empty way prefix leaves a pending relation untouched. -/
lemma procList_nil (pr : PendingRelation) : procList [] pr = pr := by
  simp [procList]

/-- `procList` composes the same way `pass2` steps do. -/
lemma procList_cons (w : Nat) (ws : List Nat) (pr : PendingRelation) :
    procList ws { pr with missing := pr.missing.filter fun m => m != w }
      = procList (w :: ws) pr := by
  simp only [procList]
  rw [filter_missing_cons]

/-- Dropping already-satisfied entries of a list before mapping and
re-filtering changes nothing when the map keeps them filtered out. -/
lemma filter_map_filter (l : List α) (f : α → β) (P : α → Bool) (Q : β → Bool)
    (h : ∀ x ∈ l, P x = false → Q (f x) = false) :
    ((l.filter P).map f).filter Q = (l.map f).filter Q := by
  induction l with
  | nil => rfl
  | cons a l ih =>
    have ih2 := ih fun x hx => h x (List.mem_cons_of_mem a hx)
    cases hp : P a with
    | false =>
      have hq : Q (f a) = false := h a (List.mem_cons_self a l) hp
      simp [List.filter_cons, hp, hq, ih2]
    | true =>
      cases hq : Q (f a) <;> simp [List.filter_cons, hp, hq, ih2]

/-- Boolean case split behind the dispatch count: a relation completed now
or completed later is exactly a relation completed by the whole prefix. -/
lemma bool_dispatch_split (a b c : Bool) (h : b = true → c = true) :
    (a && b || (a && c && !b)) = (a && c) := by
  cases a <;> cases b <;> cases c <;> simp_all

/-- Counting a disjoint disjunction splits into a sum. -/
lemma countP_add_countP (l : List α) (p q : α → Bool)
    (h : ∀ a, p a = true → q a = false) :
    l.countP p + l.countP q = l.countP fun a => p a || q a := by
  induction l with
  | nil => simp
  | cons a l ih =>
    simp only [List.countP_cons]
    cases hp : p a
    · cases hq : q a <;> simp [hp, hq] <;> omega
    · have hq : q a = false := h a hp
      simp [hp, hq]
      omega

lemma dispatchedIn_append (l1 l2 : List Event) :
    dispatchedIn (l1 ++ l2) = dispatchedIn l1 ++ dispatchedIn l2 := by
  simp [dispatchedIn]

lemma dispatchedIn_wayRead (w : Nat) (l : List Event) :
    dispatchedIn (Event.wayRead w :: l) = dispatchedIn l := by
  simp [dispatchedIn]

lemma dispatchedIn_map_dispatched (rs : List Nat) :
    dispatchedIn (rs.map Event.dispatched) = rs := by
  induction rs with
  | nil => rfl
  | cons a rs ih => simp [dispatchedIn] at ih ⊢; exact ih

/-- Pass 1 dispatches nothing: its trace holds only relation reads. -/
lemma dispatchedIn_pass1 (rels : List Relation) :
    dispatchedIn (pass1Events rels) = [] := by
  induction rels with
  | nil => rfl
  | cons r rels ih => simp [dispatchedIn, pass1Events]

/-- The final pending set after a way stream: every initial pending relation
with its streamed members removed, keeping only those still missing
something. -/
lemma pass2_state (st : List PendingRelation) (ws : List Nat)
    (h : ∀ pr ∈ st, pr.missing.isEmpty = false) :
    (pass2 st ws).1 = (st.map (procList ws)).filter fun pr => !pr.missing.isEmpty := by
  induction ws generalizing st with
  | nil =>
    have h1 : st.map (procList []) = st := by
      have : procList [] = fun pr => pr := funext procList_nil
      rw [this, List.map_id']
    rw [pass2, h1, List.filter_eq_self.2 fun pr hpr => by simp [h pr hpr]]
  | cons w ws ih =>
    have hs1 : ∀ pr ∈ (stepWay st w).1, pr.missing.isEmpty = false := by
      intro pr hpr
      simp only [stepWay, List.mem_filter] at hpr
      simpa using hpr.2
    calc (pass2 st (w :: ws)).1 = (pass2 (stepWay st w).1 ws).1 := rfl
      _ = ((stepWay st w).1.map (procList ws)).filter fun pr => !pr.missing.isEmpty :=
          ih (stepWay st w).1 hs1
      _ = (st.map (procList (w :: ws))).filter fun pr => !pr.missing.isEmpty := by
          simp only [stepWay]
          rw [filter_map_filter _ _ _ _ fun x hx hPx => by
            simp at hPx
            simp [procList, hPx]]
          rw [List.map_map]
          congr 1
          refine List.map_congr_left fun pr _ => procList_cons w ws pr

/-- How often a relation id is dispatched over a way stream: once per
pending relation with that id whose missing set the stream exhausts. -/
lemma pass2_count (st : List PendingRelation) (ws : List Nat) (r : Nat)
    (h : ∀ pr ∈ st, pr.missing.isEmpty = false) :
    (dispatchedIn (pass2 st ws).2).count r
      = st.countP fun pr =>
          pr.rid == r && (pr.missing.filter fun m => !ws.contains m).isEmpty := by
  induction ws generalizing st with
  | nil =>
    simp only [pass2, dispatchedIn, List.filterMap_nil, List.count_nil]
    symm
    rw [List.countP_eq_zero]
    intro pr hpr
    simp [h pr hpr]
  | cons w ws ih =>
    have hs1 : ∀ pr ∈ (stepWay st w).1, pr.missing.isEmpty = false := by
      intro pr hpr
      simp only [stepWay, List.mem_filter] at hpr
      simpa using hpr.2
    have hrec := ih (stepWay st w).1 hs1
    have hLHS : (dispatchedIn (pass2 st (w :: ws)).2).count r
        = ((stepWay st w).2).count r + (dispatchedIn (pass2 (stepWay st w).1 ws).2).count r := by
      show (dispatchedIn (Event.wayRead w ::
        ((stepWay st w).2.map Event.dispatched ++ (pass2 (stepWay st w).1 ws).2))).count r = _
      rw [dispatchedIn_wayRead, dispatchedIn_append, dispatchedIn_map_dispatched,
        List.count_append]
    rw [hLHS, hrec]
    have hd : ((stepWay st w).2).count r
        = st.countP fun pr => (pr.rid == r) && (pr.missing.filter fun m => m != w).isEmpty := by
      simp only [stepWay, List.count_eq_countP, List.countP_map, List.countP_filter,
        List.countP_map]
      refine List.countP_congr fun pr _ => ?_
      simp [Function.comp]
    have hs : ((stepWay st w).1.countP fun pr =>
          pr.rid == r && (pr.missing.filter fun m => !ws.contains m).isEmpty)
        = st.countP fun pr =>
            ((pr.rid == r) && ((pr.missing.filter fun m => m != w).filter fun m =>
              !ws.contains m).isEmpty) && !(pr.missing.filter fun m => m != w).isEmpty := by
      simp only [stepWay, List.countP_filter, List.countP_map]
      refine List.countP_congr fun pr _ => ?_
      simp [Function.comp]
    rw [hd, hs, countP_add_countP]
    · refine List.countP_congr fun pr _ => ?_
      rw [← filter_missing_cons pr.missing w ws]
      have hbc : ((pr.missing.filter fun m => m != w).isEmpty) = true →
          (((pr.missing.filter fun m => m != w).filter fun m =>
            !ws.contains m).isEmpty) = true := by
        intro hb
        rw [List.isEmpty_iff] at hb ⊢
        simp [hb]
      have heq := bool_dispatch_split (pr.rid == r)
        (pr.missing.filter fun m => m != w).isEmpty
        ((pr.missing.filter fun m => m != w).filter fun m => !ws.contains m).isEmpty hbc
      rw [heq]
    · intro pr hp
      simp only [Bool.and_eq_true] at hp
      simp [hp.2]

/-- Membership in the dispatch list over a way stream. -/
lemma pass2_dispatch_mem (st : List PendingRelation) (ws : List Nat) (r : Nat)
    (h : ∀ pr ∈ st, pr.missing.isEmpty = false) :
    r ∈ dispatchedIn (pass2 st ws).2
      ↔ ∃ pr ∈ st, pr.rid = r ∧ ∀ m ∈ pr.missing, m ∈ ws := by
  rw [← List.count_pos_iff, pass2_count st ws r h, List.countP_pos_iff]
  constructor
  · rintro ⟨pr, hpr, hp⟩
    simp only [Bool.and_eq_true, beq_iff_eq, List.isEmpty_iff] at hp
    refine ⟨pr, hpr, hp.1, fun m hm => ?_⟩
    by_contra hmem
    have : m ∈ pr.missing.filter fun m => !ws.contains m := by
      simp [List.mem_filter, hm, hmem]
    rw [hp.2] at this
    simp at this
  · rintro ⟨pr, hpr, hrid, hall⟩
    refine ⟨pr, hpr, ?_⟩
    simp only [Bool.and_eq_true, beq_iff_eq, List.isEmpty_iff]
    refine ⟨hrid, List.filter_eq_nil_iff.2 fun m hm => ?_⟩
    simp [hall m hm]

/-- Every pending relation produced by the prefilter still misses its whole
(nonempty) member list. -/
lemma prefilter_missing_nonempty (rels : List Relation) :
    ∀ pr ∈ prefilter rels, pr.missing.isEmpty = false := by
  intro pr hpr
  simp only [prefilter, List.mem_map, List.mem_filter] at hpr
  obtain ⟨r, ⟨hr, hcond⟩, rfl⟩ := hpr
  simp only [Bool.and_eq_true] at hcond
  simpa using hcond.2

/-- Characterization of prefilter membership. -/
lemma mem_prefilter (rels : List Relation) (pr : PendingRelation) :
    pr ∈ prefilter rels ↔ ∃ r ∈ rels, r.isAreaRelation = true ∧ r.wayMembers ≠ [] ∧
      pr = { rid := r.rid, members := r.wayMembers, missing := r.wayMembers } := by
  simp only [prefilter, List.mem_map, List.mem_filter, Bool.and_eq_true]
  constructor
  · rintro ⟨r, ⟨hr, ha, hne⟩, rfl⟩
    exact ⟨r, hr, ha, by simpa using hne, rfl⟩
  · rintro ⟨r, hr, ha, hne, rfl⟩
    exact ⟨r, ⟨hr, ha, by simpa using hne⟩, rfl⟩

/-- The prefilter keeps relation ids. -/
lemma prefilter_map_rid (rels : List Relation) :
    (prefilter rels).map PendingRelation.rid
      = (rels.filter fun r => r.isAreaRelation && !r.wayMembers.isEmpty).map
          Relation.rid := by
  rw [prefilter, List.map_map]
  rfl

/-- Distinct relation ids in the input stay distinct among pending
relations. -/
lemma prefilter_rid_nodup (rels : List Relation)
    (h : (rels.map Relation.rid).Nodup) :
    ((prefilter rels).map PendingRelation.rid).Nodup := by
  rw [prefilter_map_rid]
  exact List.Nodup.sublist (List.Sublist.map _ (List.filter_sublist _)) h

/-- Counting occurrences under a map into ids. -/
lemma count_map_eq_countP {α : Type} (f : α → Nat) (l : List α) (r : Nat) :
    (l.map f).count r = l.countP fun x => f x == r := by
  rw [List.count_eq_countP, List.countP_map]
  rfl

/-- With distinct relation ids, exactly one pending relation carries a given
matched relation's id and any property that relation's entry satisfies. -/
lemma prefilter_countP_eq_one (rels : List Relation) (r : Relation)
    (hr : r ∈ rels) (harea : r.isAreaRelation = true) (hmem : r.wayMembers ≠ [])
    (hnodup : (rels.map Relation.rid).Nodup)
    (C : PendingRelation → Bool)
    (hC : C { rid := r.rid, members := r.wayMembers, missing := r.wayMembers } = true) :
    (prefilter rels).countP (fun pr => pr.rid == r.rid && C pr) = 1 := by
  have hub : (prefilter rels).countP (fun pr => pr.rid == r.rid && C pr)
      ≤ (prefilter rels).countP fun pr => pr.rid == r.rid :=
    List.countP_mono_left fun pr _ hpr => by
      simp only [Bool.and_eq_true] at hpr
      exact hpr.1
  have h2 : ((prefilter rels).countP fun pr => pr.rid == r.rid)
      = ((prefilter rels).map PendingRelation.rid).count r.rid := by
    rw [count_map_eq_countP]
  have h3 : ((prefilter rels).map PendingRelation.rid).count r.rid ≤ 1 :=
    List.nodup_iff_count_le_one.1 (prefilter_rid_nodup rels hnodup) r.rid
  have hlb : 0 < (prefilter rels).countP (fun pr => pr.rid == r.rid && C pr) := by
    rw [List.countP_pos_iff]
    refine ⟨{ rid := r.rid, members := r.wayMembers, missing := r.wayMembers },
      (mem_prefilter rels _).2 ⟨r, hr, harea, hmem, rfl⟩, ?_⟩
    simp [hC]
  rw [h2] at hub
  omega

/-- C1: a relation matching the area predicate whose eligible way members
all stream past in pass 2 is dispatched to the assembler exactly once; a
way prefix contains its dispatch if and only if all its member ways have
streamed past in that prefix; and nothing is dispatched during pass 1 —
the run's trace is the pass-1 reads followed by the pass-2 events. -/
theorem c1_dispatch_exactly_once (rels : List Relation) (ws : List Nat) (r : Relation)
    (hr : r ∈ rels) (harea : r.isAreaRelation = true) (hmem : r.wayMembers ≠ [])
    (hnodup : (rels.map Relation.rid).Nodup)
    (hall : ∀ m ∈ r.wayMembers, m ∈ ws) :
    (dispatchedIn (runEvents rels ws)).count r.rid = 1
    ∧ (∀ p q, ws = p ++ q →
        (r.rid ∈ dispatchedIn (pass2 (prefilter rels) p).2
          ↔ ∀ m ∈ r.wayMembers, m ∈ p))
    ∧ dispatchedIn (pass1Events rels) = []
    ∧ runEvents rels ws = pass1Events rels ++ (pass2 (prefilter rels) ws).2 := by
  have hne := prefilter_missing_nonempty rels
  refine ⟨?_, ?_, dispatchedIn_pass1 rels, rfl⟩
  · rw [runEvents, dispatchedIn_append, dispatchedIn_pass1, List.nil_append]
    rw [pass2_count _ _ _ hne]
    refine prefilter_countP_eq_one rels r hr harea hmem hnodup _ ?_
    simp only [List.isEmpty_iff]
    exact List.filter_eq_nil_iff.2 fun m hm => by simp [hall m hm]
  · intro p q hpq
    rw [pass2_dispatch_mem _ _ _ hne]
    constructor
    · rintro ⟨pr, hpr, hrid, hmiss⟩
      obtain ⟨r2, hr2, ha2, hm2, rfl⟩ := (mem_prefilter rels pr).1 hpr
      have h21 : r2 = r :=
        List.inj_on_of_nodup_map hnodup hr2 hr (by simpa using hrid)
      subst h21
      exact fun m hm => hmiss m hm
    · intro hallp
      exact ⟨{ rid := r.rid, members := r.wayMembers, missing := r.wayMembers },
        (mem_prefilter rels _).2 ⟨r, hr, harea, hmem, rfl⟩, rfl, hallp⟩

/-- Witness for C1 at a concrete stream: relation 7 with members 1 and 2,
both streaming past. -/
theorem c1_witness :
    (dispatchedIn (runEvents [{ rid := 7, isAreaRelation := true, wayMembers := [1, 2] }]
      [1, 2, 3])).count 7 = 1 :=
  (c1_dispatch_exactly_once [{ rid := 7, isAreaRelation := true, wayMembers := [1, 2] }]
    [1, 2, 3] { rid := 7, isAreaRelation := true, wayMembers := [1, 2] }
    (by decide) (by decide) (by decide) (by decide) (by decide)).1

/-- C7: relations still pending at end of stream have a positive missing
count and were never dispatched; with `-r`, a non-empty incomplete set is
reported once as the explicit list of all incomplete relation ids, and an
empty set produces no report. -/
theorem c7_incomplete_reporting (opts : Options) (rels : List Relation) (ws : List Nat)
    (hnodup : (rels.map Relation.rid).Nodup)
    (hshow : opts.show_incomplete = true) :
    (∀ pr ∈ get_incomplete_relations rels ws, pr.missing ≠ [])
    ∧ (∀ pr ∈ get_incomplete_relations rels ws,
        pr.rid ∉ dispatchedIn (runEvents rels ws))
    ∧ (get_incomplete_relations rels ws ≠ [] →
        end_of_run_report opts
            ((get_incomplete_relations rels ws).map PendingRelation.rid)
          = some ((get_incomplete_relations rels ws).map PendingRelation.rid))
    ∧ (get_incomplete_relations rels ws = [] →
        end_of_run_report opts
            ((get_incomplete_relations rels ws).map PendingRelation.rid)
          = none) := by
  have hne := prefilter_missing_nonempty rels
  have hstate := pass2_state (prefilter rels) ws hne
  refine ⟨?_, ?_, ?_, ?_⟩
  · intro pr hpr
    rw [get_incomplete_relations, hstate] at hpr
    have h2 := (List.mem_filter.1 hpr).2
    simpa using h2
  · intro pr hpr hdisp
    rw [get_incomplete_relations, hstate] at hpr
    obtain ⟨hmem0, hstill⟩ := List.mem_filter.1 hpr
    obtain ⟨pr0, hpr0, rfl⟩ := List.mem_map.1 hmem0
    rw [runEvents, dispatchedIn_append, dispatchedIn_pass1, List.nil_append] at hdisp
    rw [pass2_dispatch_mem _ _ _ hne] at hdisp
    obtain ⟨pr1, hpr1, hrid1, hmiss1⟩ := hdisp
    have h01 : pr1 = pr0 :=
      List.inj_on_of_nodup_map (prefilter_rid_nodup rels hnodup) hpr1 hpr0
        (by simpa [procList] using hrid1)
    subst h01
    have hempty : (procList ws pr1).missing = [] := by
      simp only [procList]
      exact List.filter_eq_nil_iff.2 fun m hm => by simp [hmiss1 m hm]
    simp [hempty] at hstill
  · intro hne2
    have hmapne : ((get_incomplete_relations rels ws).map PendingRelation.rid) ≠ [] := by
      simpa using hne2
    simp [end_of_run_report, hshow, show_incomplete_relations, List.isEmpty_iff, hmapne]
  · intro he
    simp [end_of_run_report, hshow, show_incomplete_relations, he]

/-- Witness for C7 at a concrete stream: relation 7 misses way 5, which
never arrives, and `-r` is set. -/
theorem c7_witness :
    end_of_run_report (parseOptions [Opt.showIncomplete])
        ((get_incomplete_relations
          [{ rid := 7, isAreaRelation := true, wayMembers := [1, 5] }] [1]).map
            PendingRelation.rid)
      = some ((get_incomplete_relations
          [{ rid := 7, isAreaRelation := true, wayMembers := [1, 5] }] [1]).map
            PendingRelation.rid) :=
  (c7_incomplete_reporting (parseOptions [Opt.showIncomplete])
    [{ rid := 7, isAreaRelation := true, wayMembers := [1, 5] }] [1]
    (by decide) (by decide)).2.2.1 (by decide)

/-- One getopt case preserves the invariant that the only-invalid filter
implies the validity check: only `-f` sets `only_invalid` and it sets
`check` at the same time, and no case ever clears `check`. -/
lemma applyOpt_check_invariant (opts : Options) (o : Opt)
    (h : opts.only_invalid = true → opts.check = true) :
    (applyOpt opts o).only_invalid = true → (applyOpt opts o).check = true := by
  cases o with
  | dumpAreas arg openOk =>
    cases arg <;>
      simpa [applyOpt, optional_output.set_file, optional_output.set_stdout] using h
  | reportProblems arg openOk =>
    cases arg <;>
      simpa [applyOpt, optional_output.set_file, optional_output.set_stdout] using h
  | _ => simp_all [applyOpt]

/-- The invariant of `applyOpt_check_invariant` carried through the whole
getopt loop. -/
lemma foldl_check_invariant (args : List Opt) (init : Options)
    (h : init.only_invalid = true → init.check = true) :
    (args.foldl applyOpt init).only_invalid = true →
      (args.foldl applyOpt init).check = true := by
  induction args generalizing init with
  | nil => simpa using h
  | cons o rest ih => exact ih (applyOpt init o) (applyOpt_check_invariant init o h)

/-- C10: for every configuration accepted by the option parser, if the
`OutputOGR` handler built from it has the only-invalid filter enabled then
it also has the geometry-validity check enabled; it is impossible to reach
the filter with checking disabled. -/
theorem c10_only_invalid_forces_check (args : List Opt)
    (h : (outputOGRFor (parseOptions args)).m_only_invalid = true) :
    (outputOGRFor (parseOptions args)).m_check = true := by
  have h2 : (parseOptions args).only_invalid = true → (parseOptions args).check = true :=
    foldl_check_invariant args {} (by simp)
  simp only [outputOGRFor, OutputOGR.set_check, OutputOGR.set_only_invalid] at h ⊢
  exact h2 h

/-- Witness for C10 at the concrete command line `-f`. -/
theorem c10_witness :
    (outputOGRFor (parseOptions [Opt.onlyInvalid])).m_check = true :=
  c10_only_invalid_forces_check [Opt.onlyInvalid] (by decide)

/-- C3: the pass-2 reader mask requests only ways when the location index
strategy is the no-op strategy "none", and both ways and nodes for every
other strategy; it never requests relations. -/
theorem c3_pass2_mask (opts : Options) :
    (opts.location_index_type = "none" →
      pass2_reader_bits opts = { node := false, way := true, relation := false })
    ∧ (opts.location_index_type ≠ "none" →
      pass2_reader_bits opts = { node := true, way := true, relation := false }) := by
  constructor <;> intro h <;> simp [pass2_reader_bits, entity_bits, h]

/-- Witness for C3 at the concrete command line `-i none`. -/
theorem c3_witness :
    pass2_reader_bits (parseOptions [Opt.index "none"]) =
      { node := false, way := true, relation := false } :=
  (c3_pass2_mask (parseOptions [Opt.index "none"])).1 (by decide)

/-- C2: with the only-invalid filter active, every feature the sink writes
carries validity flag false, and an area whose validity check passed is
discarded before feature creation. -/
theorem c2_only_invalid_filter (o : OutputOGR) (a : Area)
    (h : o.m_only_invalid = true) :
    (∀ f, o.area a = AreaOutcome.written f → f.valid = false)
    ∧ (a.convOk = true → o.is_valid a = true → o.area a = AreaOutcome.discarded) := by
  constructor
  · intro f hf
    by_cases hc : a.convOk
    · by_cases hv : o.is_valid a
      · simp [OutputOGR.area, hc, h, hv] at hf
      · by_cases hw : a.writeOk
        · simp [OutputOGR.area, hc, h, hv, hw] at hf
          rw [← hf]
        · simp [OutputOGR.area, hc, h, hv, hw] at hf
    · simp [OutputOGR.area, hc] at hf
  · intro hc hv
    simp [OutputOGR.area, hc, h, hv]

/-- Witness for C2: a checked valid area meeting an only-invalid sink is
discarded. -/
theorem c2_witness :
    OutputOGR.area { m_check := true, m_only_invalid := true }
        { from_way := true, orig_id := 5, convOk := true, geomValid := true }
      = AreaOutcome.discarded :=
  (c2_only_invalid_filter { m_check := true, m_only_invalid := true }
    { from_way := true, orig_id := 5, convOk := true, geomValid := true } rfl).2 rfl rfl

/-- Processing one area whose outcome is not an uncaught exception
continues with the rest of the stream. -/
lemma processAreas_cons_ok (o : OutputOGR) (a : Area) (rest : List Area)
    (h : o.area a ≠ AreaOutcome.uncaughtError) :
    o.processAreas (a :: rest) = o.area a :: o.processAreas rest := by
  cases hox : o.area a with
  | written f => simp [OutputOGR.processAreas, hox]
  | discarded => simp [OutputOGR.processAreas, hox]
  | problem p => simp [OutputOGR.processAreas, hox]
  | uncaughtError => exact absurd hox h

/-- Processing stops at the first uncaught exception: the remaining areas
get no outcome. -/
lemma processAreas_cons_fatal (o : OutputOGR) (a : Area) (rest : List Area)
    (h : o.area a = AreaOutcome.uncaughtError) :
    o.processAreas (a :: rest) = [AreaOutcome.uncaughtError] := by
  simp [OutputOGR.processAreas, h]

/-- Processing splits over an append while no uncaught exception occurs. -/
lemma processAreas_append_ok (o : OutputOGR) (pre rest : List Area)
    (hpre : ∀ x ∈ pre, o.area x ≠ AreaOutcome.uncaughtError) :
    o.processAreas (pre ++ rest) = o.processAreas pre ++ o.processAreas rest := by
  induction pre with
  | nil => rfl
  | cons x pre ih =>
    have hx := hpre x (List.mem_cons_self x pre)
    rw [List.cons_append, processAreas_cons_ok o x _ hx,
      processAreas_cons_ok o x pre hx,
      ih fun y hy => hpre y (List.mem_cons_of_mem x hy), List.cons_append]

/-- A concrete area whose geometry conversion fails. -/
def c5ConvFailArea : Area :=
  { from_way := true, orig_id := 9, convOk := false, geomValid := false, errMsg := "error" }

/-- A concrete area whose geometry converts but whose feature write fails. -/
def c5WriteFailArea : Area :=
  { from_way := true, orig_id := 9, convOk := true, geomValid := false, writeOk := false }

/-- A concrete well-behaved area following the failing one. -/
def c5NextArea : Area :=
  { from_way := true, orig_id := 10, convOk := true, geomValid := false }

/-- C5 counterexample: a per-item feature-write failure (conversion
succeeded, the gdalcpp write fails) is an exception the `catch` on line 112
does not handle: no problem record is produced for it, and processing of
subsequent areas stops — the area after it gets no outcome at all. -/
theorem c5_counterexample :
    OutputOGR.area {} c5WriteFailArea = AreaOutcome.uncaughtError
    ∧ OutputOGR.processAreas {} [c5WriteFailArea, c5NextArea]
      = [AreaOutcome.uncaughtError]
    ∧ reportedProblems (OutputOGR.processAreas {} [c5WriteFailArea, c5NextArea]) = []
    ∧ (OutputOGR.processAreas {} [c5WriteFailArea, c5NextArea]).length = 1 := by
  refine ⟨by decide, by decide, by decide, by decide⟩

/-- C5 (amended): a per-item geometry conversion failure is caught and
reported as a diagnostic record carrying the area's source id, and every
other area's outcome is unchanged — that failure never stops the run; a
per-item feature-write failure, however, is not an `osmium::geometry_error`
and escapes the `catch`: nothing is reported for it and processing of the
remaining areas stops. -/
theorem c5_sink_failure_paths (o : OutputOGR) (pre post : List Area) (a : Area)
    (hpre : ∀ x ∈ pre, o.area x ≠ AreaOutcome.uncaughtError) :
    (a.convOk = false →
      o.processAreas (pre ++ a :: post)
        = o.processAreas pre
          ++ AreaOutcome.problem (print_area_error a) :: o.processAreas post
      ∧ (print_area_error a).orig_id = a.orig_id
      ∧ writtenFeatures (o.processAreas (pre ++ a :: post))
        = writtenFeatures (o.processAreas pre) ++ writtenFeatures (o.processAreas post))
    ∧ (a.convOk = true → (o.m_only_invalid && o.is_valid a) = false →
        a.writeOk = false →
      o.processAreas (pre ++ a :: post) = o.processAreas pre ++ [AreaOutcome.uncaughtError]
      ∧ reportedProblems (o.processAreas (pre ++ a :: post))
        = reportedProblems (o.processAreas pre)) := by
  constructor
  · intro hc
    have harea : o.area a = AreaOutcome.problem (print_area_error a) := by
      simp [OutputOGR.area, hc]
    have h1 : o.processAreas (pre ++ a :: post)
        = o.processAreas pre ++ o.processAreas (a :: post) :=
      processAreas_append_ok o pre (a :: post) hpre
    have h2 : o.processAreas (a :: post)
        = AreaOutcome.problem (print_area_error a) :: o.processAreas post := by
      rw [processAreas_cons_ok o a post (by simp [harea]), harea]
    refine ⟨by rw [h1, h2], rfl, ?_⟩
    rw [h1, h2]
    simp [writtenFeatures]
  · intro hc hv hw
    have harea : o.area a = AreaOutcome.uncaughtError := by
      simp [OutputOGR.area, hc, hv, hw]
    have h1 : o.processAreas (pre ++ a :: post)
        = o.processAreas pre ++ o.processAreas (a :: post) :=
      processAreas_append_ok o pre (a :: post) hpre
    have h2 : o.processAreas (a :: post) = [AreaOutcome.uncaughtError] :=
      processAreas_cons_fatal o a post harea
    refine ⟨by rw [h1, h2], ?_⟩
    rw [h1, h2]
    simp [reportedProblems]

/-- Witness for C5 (amended): both paths at concrete areas — the conversion
failure is reported in place, the write failure truncates processing. -/
theorem c5_witness :
    (print_area_error c5ConvFailArea).orig_id = c5ConvFailArea.orig_id
    ∧ OutputOGR.processAreas {} ([] ++ c5WriteFailArea :: [])
      = OutputOGR.processAreas {} [] ++ [AreaOutcome.uncaughtError] :=
  ⟨((c5_sink_failure_paths {} [] [] c5ConvFailArea
      (fun x hx => absurd hx (List.not_mem_nil x))).1 rfl).2.1,
   ((c5_sink_failure_paths {} [] [] c5WriteFailArea
      (fun x hx => absurd hx (List.not_mem_nil x))).2 rfl rfl rfl).1⟩

/-- C4 counterexample: a run whose problem-report file cannot be opened is
not terminated and nothing fatal is reported — `set_file` installs the
stream without checking the open, and the run completes with the broken
problem stream. -/
theorem c4_counterexample :
    (parseOptions [Opt.reportProblems (some "problems.log") false,
      Opt.output "areas.db"]).problem_stream.broken = true
    ∧ (run (parseOptions [Opt.reportProblems (some "problems.log") false,
        Opt.output "areas.db"]) ⟨true, true⟩).isFatal = false
    ∧ run (parseOptions [Opt.reportProblems (some "problems.log") false,
        Opt.output "areas.db"]) ⟨true, true⟩
      = RunResult.completed true false := by decide

/-- C4 (amended): an unopenable database aborts the run before pass 1 and an
unopenable input stream aborts it as pass 1 starts; these are the only fatal
errors — in particular an unopenable problem or dump file is never detected
and the run completes with that stream silently broken. -/
theorem c4_fatal_setup_errors (opts : Options) (env : Env) :
    (opts.collect_only = false → opts.database_name ≠ "" → env.dbOpenOk = false →
      run opts env = RunResult.fatal SetupError.dbOpen false)
    ∧ (env.inputOpenOk = false → (run opts env).isFatal = true)
    ∧ ((run opts env).isFatal = true →
        env.dbOpenOk = false ∨ env.inputOpenOk = false)
    ∧ (env.inputOpenOk = true →
        (opts.collect_only = true ∨ opts.database_name = "" ∨ env.dbOpenOk = true) →
        run opts env
          = RunResult.completed opts.problem_stream.broken opts.dump_stream.broken) := by
  refine ⟨?_, ?_, ?_, ?_⟩
  · intro hco hdb hdbok
    simp [run, hco, hdb, hdbok]
  · intro hin
    unfold run
    split_ifs <;> simp_all [RunResult.isFatal]
  · intro hf
    unfold run at hf
    split_ifs at hf <;> simp_all [RunResult.isFatal]
  · intro hin hor
    unfold run
    split_ifs <;> simp_all

/-- Witness for C4 (amended): with a database that cannot be created the run
aborts before pass 1. -/
theorem c4_witness :
    run (parseOptions [Opt.output "areas.db"]) ⟨true, false⟩
      = RunResult.fatal SetupError.dbOpen false :=
  (c4_fatal_setup_errors (parseOptions [Opt.output "areas.db"]) ⟨true, false⟩).1
    (by decide) (by decide) (by decide)

/-- C9 counterexample: with no database configured and no explicit problem
target, no problem reporter is installed at all — problem records are
dropped, not redirected to a default stream. -/
theorem c9_counterexample :
    (parseOptions []).problem_stream.stream = none
    ∧ (parseOptions []).database_name = ""
    ∧ problem_reporter (parseOptions []) = none := by decide

/-- C9 (amended): an explicit problem target always wins; with none, a run
with a database falls back to a problem table in that database, and a run
without a database installs no reporter, so its problem records are
dropped. -/
theorem c9_problem_reporter_fallback (opts : Options) :
    (∀ t, opts.problem_stream.stream = some t →
      problem_reporter opts = some (ProblemReporterKind.stream t))
    ∧ (opts.problem_stream.stream = none → opts.database_name ≠ "" →
        problem_reporter opts = some ProblemReporterKind.ogr)
    ∧ (opts.problem_stream.stream = none → opts.database_name = "" →
        problem_reporter opts = none) := by
  refine ⟨?_, ?_, ?_⟩
  · intro t ht
    simp [problem_reporter, ht]
  · intro hnone hdb
    simp [problem_reporter, hnone, hdb]
  · intro hnone hdb
    simp [problem_reporter, hnone, hdb]

/-- Witness for C9 (amended): with a database and no explicit target the
fallback is the database problem table. -/
theorem c9_witness :
    problem_reporter (parseOptions [Opt.output "areas.db"])
      = some ProblemReporterKind.ogr :=
  (c9_problem_reporter_fallback (parseOptions [Opt.output "areas.db"])).2.1
    (by decide) (by decide)

/-- Modelled from the libosmium `area_stats` interface the source relies
on: a bundle of structural counters, each starting at zero. -/
structure area_stats where
  area_really_complex_case : Nat := 0
  area_simple_case : Nat := 0
  area_touching_rings_case : Nat := 0
  duplicate_nodes : Nat := 0
  duplicate_segments : Nat := 0
  from_relations : Nat := 0
  from_ways : Nat := 0
  incomplete_relations : Nat := 0
  member_ways : Nat := 0
  nodes : Nat := 0
  open_rings : Nat := 0
  short_ways : Nat := 0
  touching_rings : Nat := 0
  ways_in_multiple_rings : Nat := 0
  wrong_role : Nat := 0
deriving DecidableEq

/-- Embeds class `DummyAssembler` (lines 145-166): only its statistics
member, default-initialized and never written by any method. -/
structure DummyAssembler where
  m_stats : area_stats := {}
deriving DecidableEq

/-- Embeds `DummyAssembler::config_type` (line 151): an empty
configuration. -/
structure DummyAssembler.config_type where
deriving DecidableEq

/-- Embeds the `DummyAssembler` constructor (lines 153-154). -/
def DummyAssembler.ofConfig (_ : DummyAssembler.config_type) : DummyAssembler :=
  {}

/-- Embeds `DummyAssembler::operator()(const Way&, Buffer&)` (lines
156-157): an empty body — nothing is appended to the buffer and the
statistics are untouched. -/
def DummyAssembler.assembleWay (a : DummyAssembler) (_wid : Nat)
    (buffer : List Nat) : DummyAssembler × List Nat :=
  (a, buffer)

/-- Embeds `DummyAssembler::operator()(const Relation&, const
std::vector&, Buffer&)` (lines 159-160): likewise an empty body. -/
def DummyAssembler.assembleRelation (a : DummyAssembler) (_rid : Nat)
    (_memberWays : List Nat) (buffer : List Nat) : DummyAssembler × List Nat :=
  (a, buffer)

/-- Embeds `DummyAssembler::stats` (lines 162-164). -/
def DummyAssembler.stats (a : DummyAssembler) : area_stats :=
  a.m_stats

/-- One collect-only dispatch: a streamed way or a ready relation handed to
the assembler by the collector. -/
inductive AssemblerInput where
  | way (wid : Nat)
  | relationInput (rid : Nat) (memberWays : List Nat)
deriving DecidableEq

/-- A whole collect-only run: every dispatched input processed in order,
threading the assembler state and the output buffer. -/
def DummyAssembler.runAll (a : DummyAssembler) (inputs : List AssemblerInput)
    (buffer : List Nat) : DummyAssembler × List Nat :=
  match inputs with
  | [] => (a, buffer)
  | AssemblerInput.way w :: rest =>
    DummyAssembler.runAll (a.assembleWay w buffer).1 rest (a.assembleWay w buffer).2
  | AssemblerInput.relationInput r ms :: rest =>
    DummyAssembler.runAll (a.assembleRelation r ms buffer).1 rest
      (a.assembleRelation r ms buffer).2

/-- C6 counterexample: dispatching way 42 to a fresh collect-only assembler
produces no geometry, but also leaves every statistics counter at its
initial zero — the dummy assembler records nothing about the inputs it
receives, so the end-of-run stats do not reflect the collected
structure. -/
theorem c6_counterexample :
    ((DummyAssembler.ofConfig {}).assembleWay 42 []).1.stats = ({} : area_stats)
    ∧ ((DummyAssembler.ofConfig {}).assembleWay 42 []).2 = ([] : List Nat)
    ∧ ({} : area_stats).from_ways = 0
    ∧ ({} : area_stats).member_ways = 0 :=
  ⟨rfl, rfl, rfl, rfl⟩

/-- C6 (amended): in collect-only mode the assembler is a complete no-op:
any sequence of dispatched ways and ready relations produces no area
geometry and leaves the assembler state — hence its statistics — exactly as
it was. -/
theorem c6_dummy_assembler_noop (a : DummyAssembler) (inputs : List AssemblerInput)
    (buffer : List Nat) :
    DummyAssembler.runAll a inputs buffer = (a, buffer)
    ∧ (DummyAssembler.runAll a inputs buffer).1.stats = a.stats := by
  have h : DummyAssembler.runAll a inputs buffer = (a, buffer) := by
    induction inputs with
    | nil => rfl
    | cons i rest ih =>
      cases i <;>
        simpa [DummyAssembler.runAll, DummyAssembler.assembleWay,
          DummyAssembler.assembleRelation] using ih
  exact ⟨h, by rw [h]⟩

/-- C8 counterexample: ways 1 and 2147483649 are different source entities,
yet after the `static_cast<int32_t>` truncation on line 107 both persist
the id 2 in the sink's id field; and way 4294967297 (2^32 apart from way 1)
persists a feature with every field — id, origin flag and orig_id —
identical to way 1's, so the persisted (origin flag, orig_id) pair does not
determine the source entity either. -/
theorem c8_counterexample :
    persisted_id true 1 = persisted_id true 2147483649
    ∧ (1 : Nat) ≠ 2147483649
    ∧ persisted_id true 1 = 2
    ∧ OutputOGR.area {} { from_way := true, orig_id := 1, convOk := true, geomValid := false }
      = AreaOutcome.written { id := 2, valid := false, source := "w", orig_id := 1 }
    ∧ OutputOGR.area {}
        { from_way := true, orig_id := 2147483649, convOk := true, geomValid := false }
      = AreaOutcome.written
        { id := 2, valid := false, source := "w", orig_id := -2147483647 }
    ∧ OutputOGR.area {}
        { from_way := true, orig_id := 4294967297, convOk := true, geomValid := false }
      = AreaOutcome.written { id := 2, valid := false, source := "w", orig_id := 1 }
    ∧ (1 : Nat) ≠ 4294967297 := by
  refine ⟨by decide, by decide, by decide, by decide, by decide, by decide, by decide⟩

/-- C8 (amended): the sink persists the synthetic area id truncated to a
signed 32-bit field; a way-derived and a relation-derived area still never
share a persisted id (the parity split survives truncation), the persisted
id is unique across source entities — and so determines origin flag and
original id — whenever original ids are below 2^31, and any two same-type
sources whose original ids are exactly 2^31 apart persist the same id
field. -/
theorem c8_persisted_id_roundtrip :
    (∀ o a f, OutputOGR.area o a = AreaOutcome.written f →
      f.id = persisted_id a.from_way a.orig_id)
    ∧ (∀ w r : Nat, persisted_id true w ≠ persisted_id false r)
    ∧ (∀ f1 f2 : Bool, ∀ o1 o2 : Nat, o1 < 2147483648 → o2 < 2147483648 →
        persisted_id f1 o1 = persisted_id f2 o2 → f1 = f2 ∧ o1 = o2)
    ∧ (∀ f : Bool, ∀ o : Nat, persisted_id f (o + 2147483648) = persisted_id f o) := by
  refine ⟨?_, ?_, ?_, ?_⟩
  · intro o a f hf
    by_cases hc : a.convOk
    · by_cases hv : o.m_only_invalid && o.is_valid a
      · simp [OutputOGR.area, hc, hv] at hf
      · by_cases hw : a.writeOk
        · simp [OutputOGR.area, hc, hv, hw] at hf
          rw [← hf]
        · simp [OutputOGR.area, hc, hv, hw] at hf
    · simp [OutputOGR.area, hc] at hf
  · intro w r hEq
    simp [persisted_id, area_id, toInt32] at hEq
    split at hEq <;> split at hEq <;> omega
  · intro f1 f2 o1 o2 h1 h2 hEq
    cases f1 <;> cases f2
    · refine ⟨rfl, ?_⟩
      simp [persisted_id, area_id, toInt32] at hEq
      split at hEq <;> split at hEq <;> omega
    · exfalso
      simp [persisted_id, area_id, toInt32] at hEq
      split at hEq <;> split at hEq <;> omega
    · exfalso
      simp [persisted_id, area_id, toInt32] at hEq
      split at hEq <;> split at hEq <;> omega
    · refine ⟨rfl, ?_⟩
      simp [persisted_id, area_id, toInt32] at hEq
      split at hEq <;> split at hEq <;> omega
  · intro f o
    cases f <;>
      (simp [persisted_id, area_id, toInt32]
       split <;> split <;> omega)

/-- Witness for C8 (amended): distinct small ids stay distinct, the parity
split holds at a concrete pair, and a concrete 2^31-apart pair collides. -/
theorem c8_witness :
    (true = true ∧ (5 : Nat) = 5) ∧ persisted_id true 3 ≠ persisted_id false 4
      ∧ persisted_id true (1 + 2147483648) = persisted_id true 1 :=
  ⟨c8_persisted_id_roundtrip.2.2.1 true true 5 5 (by decide) (by decide) rfl,
   c8_persisted_id_roundtrip.2.1 3 4,
   c8_persisted_id_roundtrip.2.2.2 true 1⟩

end OatAreas
